import Mathlib

/-!
Shallow embedding of the dbt-webhook configuration loader
(src/dbt_webhook/config.py) and its diagnostics (src/dbt_webhook/events.py),
together with a spec-modelled fragment of the hook dispatcher (the dispatcher
module is not part of the sources; see the definitions marked
"Modelled from the spec").

Conventions of the embedding:
* Python dictionaries that preserve insertion order (`os.environ`, the
  `headers` mapping, `env_vars` processing) become association lists
  `List (String × α)` looked up with `alookup`.
* Diagnostic events (`events.warn(...)`, `events.error(...)`, ...) become an
  output list of `(EventLevel × Event)` pairs, in emission order.
* A Python exception escaping a function becomes an `Except.error`.
-/

set_option autoImplicit false

namespace DbtWebhook

/-- Event levels of dbt_common used by events.py (`EventLevel`). -/
inductive EventLevel
  | debug
  | warn
  | info
  | error
deriving DecidableEq, Repr

/-- Diagnostic message classes of src/dbt_webhook/events.py, by constructor
arguments rather than rendered text. -/
inductive Event
  | pluginConfigNotFound
  | pluginConfigFoundFile (filePath : String)
  | envVariableValueNotPassed (envVar : String)
  | headerValueRenderingError (headerName headerValue : String)
deriving DecidableEq, Repr

/-- Python exceptions that can escape `dbtWebhookConfig.from_yaml`:
a parse/validation error from `yaml.safe_load` / pydantic, or the
`UnboundLocalError` raised at config.py line 83 when the first iterated
header fails to render. -/
inductive PyExn
  | parseError
  | unboundLocal
deriving DecidableEq, Repr

/-- Decidable equality for `Except`, used to evaluate loader outcomes on
concrete inputs. -/
instance {ε α : Type} [DecidableEq ε] [DecidableEq α] : DecidableEq (Except ε α) := fun x y =>
  match x, y with
  | .error a, .error b =>
    if h : a = b then isTrue (by rw [h]) else isFalse (by intro hc; cases hc; exact h rfl)
  | .ok a, .ok b =>
    if h : a = b then isTrue (by rw [h]) else isFalse (by intro hc; cases hc; exact h rfl)
  | .error _, .ok _ => isFalse (by intro hc; cases hc)
  | .ok _, .error _ => isFalse (by intro hc; cases hc)

/-- First-match association-list lookup (Python `dict.__getitem__` /
`in` test; all dictionaries in the embedded code are built without
duplicate keys, so first match agrees with Python's last-write). -/
def alookup {κ β : Type} [DecidableEq κ] : List (κ × β) → κ → Option β
  | [], _ => none
  | (k, v) :: rest, key => if k = key then some v else alookup rest key

/-- The default body template constant `WEBHOOK_DATA` of config.py
(the string `\x7b\x7b data | tojson \x7d\x7d`). -/
def WEBHOOK_DATA : String := "\x7b\x7b data | tojson \x7d\x7d"

/-- Default headers of `baseHookConfig` (config.py lines 17-20). -/
def defaultHeaders : List (String × String) :=
  [("Authorization", "bearer {DBT_WEBHOOK_AUTH_TOKEN}"),
   ("Content-Type", "application/json")]

/-- Structure `baseHookConfig` (config.py lines 11-21): command level hook config.
The `webhok_method` field name reproduces the source spelling. -/
structure baseHookConfig where
  command_types : List String := ["run", "build"]
  webhook_url : String := ""
  webhok_method : String := "POST"
  webhook_request_data_template : String := WEBHOOK_DATA
  headers : List (String × String) := defaultHeaders
  env_vars : List String := ["DBT_WEBHOOK_AUTH_TOKEN"]
deriving DecidableEq, Repr

/-- Structure `modelHookConfig` (config.py lines 29-31): model level hook config,
extending the base config with `node_types`. -/
structure modelHookConfig extends baseHookConfig where
  node_types : List String := ["model"]
deriving DecidableEq, Repr

/-- Structure `dbtWebhookConfig` (config.py lines 34-40): the four optional hook
configs, each defaulting to a fully-defaulted hook config.
(`commandHookConfig` adds nothing over `baseHookConfig`.) -/
structure dbtWebhookConfig where
  command_start_hook : Option baseHookConfig := some {}
  command_end_hook : Option baseHookConfig := some {}
  model_start_hook : Option modelHookConfig := some {}
  model_end_hook : Option modelHookConfig := some {}
deriving DecidableEq, Repr

/-- A scalar-or-list-or-mapping YAML value, enough for the hook config
fields (documents are assumed type-correct: a wrongly typed value would
make pydantic raise, which no claim exercises). -/
inductive YVal
  | s (v : String)
  | l (v : List String)
  | m (v : List (String × String))
deriving DecidableEq, Repr

/-- Read a string-valued key from a parsed hook mapping, with default. -/
def yStr (es : List (String × YVal)) (k : String) (d : String) : String :=
  match alookup es k with
  | some (.s v) => v
  | _ => d

/-- Read a list-valued key from a parsed hook mapping, with default. -/
def yList (es : List (String × YVal)) (k : String) (d : List String) : List String :=
  match alookup es k with
  | some (.l v) => v
  | _ => d

/-- Read a mapping-valued key from a parsed hook mapping, with default. -/
def yMap (es : List (String × YVal)) (k : String) (d : List (String × String)) :
    List (String × String) :=
  match alookup es k with
  | some (.m v) => v
  | _ => d

/-- Pydantic construction of a `baseHookConfig` from a parsed YAML hook
mapping: each known field is read by its Python field name (so the method
field reads the key `webhok_method`, reproducing the source spelling);
unknown keys are ignored (pydantic default `extra` behaviour). -/
def mkBaseHookConfig (es : List (String × YVal)) : baseHookConfig :=
  { command_types := yList es "command_types" ["run", "build"]
    webhook_url := yStr es "webhook_url" ""
    webhok_method := yStr es "webhok_method" "POST"
    webhook_request_data_template := yStr es "webhook_request_data_template" WEBHOOK_DATA
    headers := yMap es "headers" defaultHeaders
    env_vars := yList es "env_vars" ["DBT_WEBHOOK_AUTH_TOKEN"] }

/-- Pydantic construction of a `modelHookConfig` from a parsed hook mapping. -/
def mkModelHookConfig (es : List (String × YVal)) : modelHookConfig :=
  { mkBaseHookConfig es with node_types := yList es "node_types" ["model"] }

/-- A structurally valid configuration document: for each of the four
top-level hook keys, either absent (`none`, pydantic uses the field
default) or present with a hook mapping. -/
structure ConfigDoc where
  command_start_hook : Option (List (String × YVal)) := none
  command_end_hook : Option (List (String × YVal)) := none
  model_start_hook : Option (List (String × YVal)) := none
  model_end_hook : Option (List (String × YVal)) := none
deriving DecidableEq, Repr

/-- Pydantic call `dbtWebhookConfig(**data)`: build the config from a parsed document,
defaulting each absent hook key. -/
def mkConfig (d : ConfigDoc) : dbtWebhookConfig :=
  { command_start_hook := some (match d.command_start_hook with
      | some es => mkBaseHookConfig es
      | none => {})
    command_end_hook := some (match d.command_end_hook with
      | some es => mkBaseHookConfig es
      | none => {})
    model_start_hook := some (match d.model_start_hook with
      | some es => mkModelHookConfig es
      | none => {})
    model_end_hook := some (match d.model_end_hook with
      | some es => mkModelHookConfig es
      | none => {}) }

/-- One step state of Python's `str.format` scanner: `none` while copying
literal text, `some buf` while reading a replacement-field name between
braces. Used by `pyFormatAux`. -/
abbrev FmtState := Option (List Char)

/-- Python `template.format(**vars)` on the character list of the template,
for the simple replacement fields the header templates use (`\x7bNAME\x7d`
with a plain name, `\x7b\x7b`/`\x7d\x7d` escapes): a field name absent from
`vars` raises `KeyError`, a stray or unclosed brace raises `ValueError`;
any raise is `Except.error`. -/
def pyFormatAux (vars : List (String × String)) : FmtState → List Char → Except Unit (List Char)
  | none, [] => .ok []
  | none, '{' :: '{' :: rest => (pyFormatAux vars none rest).map (fun s => '{' :: s)
  | none, '}' :: '}' :: rest => (pyFormatAux vars none rest).map (fun s => '}' :: s)
  | none, '{' :: rest => pyFormatAux vars (some []) rest
  | none, '}' :: _ => .error ()
  | none, c :: rest => (pyFormatAux vars none rest).map (fun s => c :: s)
  | some _, [] => .error ()
  | some buf, '}' :: rest =>
      match alookup vars (String.mk buf) with
      | some v => (pyFormatAux vars none rest).map (fun s => v.data ++ s)
      | none => .error ()
  | some buf, c :: rest => pyFormatAux vars (some (buf ++ [c])) rest

/-- Python `header_value.format(**env_var_values)` (config.py line 79). -/
def pyFormat (tmpl : String) (vars : List (String × String)) : Except Unit String :=
  (pyFormatAux vars none tmpl.data).map String.mk

/-- The replacement-field names a template references, or `none` when the
template is malformed (stray or unclosed brace); mirrors the scanner of
`pyFormatAux` without looking values up. -/
def templateRefsAux : FmtState → List Char → Option (List String)
  | none, [] => some []
  | none, '{' :: '{' :: rest => templateRefsAux none rest
  | none, '}' :: '}' :: rest => templateRefsAux none rest
  | none, '{' :: rest => templateRefsAux (some []) rest
  | none, '}' :: _ => none
  | none, _ :: rest => templateRefsAux none rest
  | some _, [] => none
  | some buf, '}' :: rest => (templateRefsAux none rest).map (fun ns => String.mk buf :: ns)
  | some buf, c :: rest => templateRefsAux (some (buf ++ [c])) rest

/-- The placeholder names referenced by a header template string. -/
def templateRefs (tmpl : String) : Option (List String) :=
  templateRefsAux none tmpl.data

/-- The process environment, as seen through `os.environ` / `os.getenv`. -/
abbrev EnvMap := List (String × String)

/-- The `env_var_values` dictionary built by the first loop of
`_substitute_env_vars` (config.py lines 72-76): every name in `env_vars`
mapped to `os.getenv(env_var, "")`. -/
def envVarValues (env : EnvMap) (env_vars : List String) : List (String × String) :=
  env_vars.map (fun v => ((v, (alookup env v).getD "") : String × String))

/-- The warnings emitted by the first loop of `_substitute_env_vars`
(config.py lines 73-75): one `EnvVariableValueNotPassed` warning per
`env_vars` entry absent from the environment, in loop order. -/
def envWarnEvents (env : EnvMap) (env_vars : List String) : List (EventLevel × Event) :=
  env_vars.filterMap (fun v =>
    if alookup env v = none then some (EventLevel.warn, Event.envVariableValueNotPassed v)
    else none)

/-- The second loop of `_substitute_env_vars` (config.py lines 77-83),
with the Python locals made explicit: `success`, the `headers_ext`
accumulator, the `rendered_header_value` local carried across iterations
(`none` while still unbound), and the emitted events. On a rendering
failure the `HeaderValueRenderingError` is emitted and the assignment at
line 83 still runs: it stores the stale `rendered_header_value` if one is
bound, and raises `UnboundLocalError` (`Except.error`) otherwise. -/
def renderHeadersLoop (vars : List (String × String)) :
    List (String × String) → Bool → List (String × String) → Option String →
    List (EventLevel × Event) →
    List (EventLevel × Event) × Except Unit (Bool × List (String × String))
  | [], success, headers_ext, _, evs => (evs, .ok (success, headers_ext))
  | (hn, hv) :: rest, success, headers_ext, last, evs =>
    match pyFormat hv vars with
    | .ok r => renderHeadersLoop vars rest success (headers_ext ++ [(hn, r)]) (some r) evs
    | .error _ =>
      let evs2 := evs ++ [(EventLevel.error, Event.headerValueRenderingError hn hv)]
      match last with
      | none => (evs2, .error ())
      | some r => renderHeadersLoop vars rest false (headers_ext ++ [(hn, r)]) (some r) evs2

/-- Method `dbtWebhookConfig._substitute_env_vars` (config.py lines 66-85):
returns the emitted events and either the raised `UnboundLocalError`
(`Except.error`) or the `success` flag together with the (possibly
header-mutated) hook config. -/
def substitute_env_vars (env : EnvMap) (node_config : Option baseHookConfig) :
    List (EventLevel × Event) × Except Unit (Bool × Option baseHookConfig) :=
  match node_config with
  | none => ([], .ok (true, none))
  | some cfg =>
    if cfg.env_vars = [] ∨ cfg.headers = [] then
      ([], .ok (true, some cfg))
    else
      let vals := envVarValues env cfg.env_vars
      match renderHeadersLoop vals cfg.headers true [] none (envWarnEvents env cfg.env_vars) with
      | (evs, .error e) => (evs, .error e)
      | (evs, .ok (success, headers_ext)) =>
        (evs, .ok (success, some { cfg with headers := headers_ext }))

/-- Method `_substitute_env_vars` applied to a model-level hook config (the
method only touches the `baseHookConfig` fields). -/
def substitute_env_vars_model (env : EnvMap) (node_config : Option modelHookConfig) :
    List (EventLevel × Event) × Except Unit (Bool × Option modelHookConfig) :=
  match node_config with
  | none => ([], .ok (true, none))
  | some cfg =>
    match substitute_env_vars env (some cfg.tobaseHookConfig) with
    | (evs, .error e) => (evs, .error e)
    | (evs, .ok (b, some base)) => (evs, .ok (b, some { cfg with tobaseHookConfig := base }))
    | (evs, .ok (b, none)) => (evs, .ok (b, none))

/-- The loop of `from_yaml` over the four sub-configs (config.py lines
55-63): substitute env vars into each hook in order; a raise propagates,
a `success = False` makes `from_yaml` return `None` at once (later hooks
are not processed), otherwise the updated config is returned. -/
def processHooks (env : EnvMap) (config : dbtWebhookConfig) :
    List (EventLevel × Event) × Except PyExn (Option dbtWebhookConfig) :=
  match substitute_env_vars env config.command_start_hook with
  | (e1, .error _) => (e1, .error .unboundLocal)
  | (e1, .ok (false, _)) => (e1, .ok none)
  | (e1, .ok (true, c1)) =>
    match substitute_env_vars env config.command_end_hook with
    | (e2, .error _) => (e1 ++ e2, .error .unboundLocal)
    | (e2, .ok (false, _)) => (e1 ++ e2, .ok none)
    | (e2, .ok (true, c2)) =>
      match substitute_env_vars_model env config.model_start_hook with
      | (e3, .error _) => (e1 ++ e2 ++ e3, .error .unboundLocal)
      | (e3, .ok (false, _)) => (e1 ++ e2 ++ e3, .ok none)
      | (e3, .ok (true, c3)) =>
        match substitute_env_vars_model env config.model_end_hook with
        | (e4, .error _) => (e1 ++ e2 ++ e3 ++ e4, .error .unboundLocal)
        | (e4, .ok (false, _)) => (e1 ++ e2 ++ e3 ++ e4, .ok none)
        | (e4, .ok (true, c4)) =>
          (e1 ++ e2 ++ e3 ++ e4,
           .ok (some { command_start_hook := c1, command_end_hook := c2,
                       model_start_hook := c3, model_end_hook := c4 }))

/-- What `from_yaml` finds at the resolved config path: no file
(`os.path.exists` false), a file that fails `yaml.safe_load`/pydantic
validation, or a file parsing to a structurally valid document. -/
inductive FileInput
  | missing
  | unparseable
  | doc (d : ConfigDoc)

/-- Classmethod `dbtWebhookConfig.from_yaml` (config.py lines 42-64): emitted events
paired with the outcome — a propagated exception (`Except.error`), a
returned `None` (`.ok none`), or the loaded config (`.ok (some _)`). -/
def from_yaml (env : EnvMap) (config_path : String) (file : FileInput) :
    List (EventLevel × Event) × Except PyExn (Option dbtWebhookConfig) :=
  match file with
  | .missing =>
    match processHooks env {} with
    | (evs, r) => ((EventLevel.warn, Event.pluginConfigNotFound) :: evs, r)
  | .unparseable =>
    ([(EventLevel.info, Event.pluginConfigFoundFile config_path)], .error .parseError)
  | .doc d =>
    match processHooks env (mkConfig d) with
    | (evs, r) => ((EventLevel.info, Event.pluginConfigFoundFile config_path) :: evs, r)

/-- Modelled from the spec: the Hook Dispatcher's step-1 guard (§4.3,
plugin.py is not among the sources) — a hook is a no-op when its config is
absent, its URL is empty, or the command type is not in its command types. -/
def hookDispatches (cfg : Option baseHookConfig) (commandType : String) : Bool :=
  match cfg with
  | none => false
  | some c => !(c.webhook_url = "") && c.command_types.contains commandType

/-- Whether any of the four hooks of a loaded configuration can dispatch
for a command type; `none` means the load yielded no usable configuration
and every hook is treated as absent. -/
def anyHookDispatches (oc : Option dbtWebhookConfig) (ct : String) : Bool :=
  match oc with
  | none => false
  | some c =>
    hookDispatches c.command_start_hook ct || hookDispatches c.command_end_hook ct ||
    hookDispatches (c.model_start_hook.map (fun m => m.tobaseHookConfig)) ct ||
    hookDispatches (c.model_end_hook.map (fun m => m.tobaseHookConfig)) ct

/-- Modelled from the spec: the plugin wraps the loader; a load that
raises or returns `None` leaves the invocation with no usable
configuration (all hooks absent). -/
def effectiveHooks : Except PyExn (Option dbtWebhookConfig) → Option dbtWebhookConfig
  | .ok (some c) => some c
  | _ => none

/-- Modelled from the spec: a CorrelationKey is the invocation identifier
for command-level hooks, or invocation identifier plus unit unique id for
model-level hooks (§3). -/
abbrev CorrelationKey := String × Option String

/-- Modelled from the spec: a CorrelationRecord captures the start call's
JSON response body together with the resolved URL and headers used (§3). -/
structure CorrelationRecord where
  url : String
  headers : List (String × String)
  response : List (String × String)
deriving DecidableEq, Repr

/-- Modelled from the spec: §4.3 step 3 — a start-class call issues the
configured method to the hook's URL and stores the response under the
event's CorrelationKey. -/
def storeStart (store : List (CorrelationKey × CorrelationRecord)) (key : CorrelationKey)
    (cfg : baseHookConfig) (response : List (String × String)) :
    List (CorrelationKey × CorrelationRecord) :=
  (key, { url := cfg.webhook_url, headers := cfg.headers, response := response }) :: store

/-- Modelled from the spec: §4.3 step 4 — the method and URL of an
end-class call: a PUT to the recorded URL when a CorrelationRecord exists
for the key, else the hook's own configured method and URL. -/
def endCallRequest (store : List (CorrelationKey × CorrelationRecord)) (key : CorrelationKey)
    (cfg : baseHookConfig) : String × String :=
  match alookup store key with
  | some r => ("PUT", r.url)
  | none => (cfg.webhok_method, cfg.webhook_url)

/-- Whether an `Except` value is a success. -/
def exceptOkB {ε α : Type} : Except ε α → Bool
  | .ok _ => true
  | .error _ => false

/-- The rendered value of a header template (meaningful when rendering
succeeds; `""` placeholder otherwise). -/
def renderedOf (vars : List (String × String)) (hv : String) : String :=
  match pyFormat hv vars with
  | .ok r => r
  | .error _ => ""

/-- The rendered headers list (`headers_ext`) produced when every header
of `hs` renders against `vars`. -/
def renderHeaders (vars : List (String × String)) (hs : List (String × String)) :
    List (String × String) :=
  hs.map (fun p => (p.1, renderedOf vars p.2))

/-- Every header template of the hook config is well formed and references
only placeholder names listed in the hook's `env_vars`. -/
def coveredB (c : baseHookConfig) : Bool :=
  c.headers.all (fun p =>
    match templateRefs p.2 with
    | some names => names.all (fun n => c.env_vars.contains n)
    | none => false)

/-- The hook config reaches the rendering loop (nonempty `env_vars` and
`headers`) and at least one of its header templates fails to render
against the substitution map built from its `env_vars`. -/
def headerFailsB (env : EnvMap) (oc : Option baseHookConfig) : Bool :=
  match oc with
  | none => false
  | some c =>
    !c.env_vars.isEmpty && !c.headers.isEmpty &&
      c.headers.any (fun p => !exceptOkB (pyFormat p.2 (envVarValues env c.env_vars)))

/-- Some hook of the configuration has a failing header template. -/
def hookHeaderFailsB (env : EnvMap) (c : dbtWebhookConfig) : Bool :=
  headerFailsB env c.command_start_hook || headerFailsB env c.command_end_hook ||
    headerFailsB env (c.model_start_hook.map (fun m => m.tobaseHookConfig)) ||
    headerFailsB env (c.model_end_hook.map (fun m => m.tobaseHookConfig))

/-- Predicate: `b` is (the base part of) one of the four hook configs of `c`. -/
def hookOfConfig (c : dbtWebhookConfig) (b : baseHookConfig) : Prop :=
  c.command_start_hook = some b ∨ c.command_end_hook = some b
    ∨ c.model_start_hook.map (fun m => m.tobaseHookConfig) = some b
    ∨ c.model_end_hook.map (fun m => m.tobaseHookConfig) = some b

/-- Scanner alignment: a well-formed template whose replacement-field
names all resolve in the substitution map renders without error. -/
theorem refs_render (vars : List (String × String)) :
    ∀ (st : FmtState) (l : List Char) (names : List String),
      templateRefsAux st l = some names →
      (∀ n ∈ names, (alookup vars n).isSome = true) →
      ∃ out, pyFormatAux vars st l = .ok out := by
  intro st l
  induction st, l using templateRefsAux.induct <;> intro names h1 h2
  case case1 => exact ⟨[], rfl⟩
  case case2 rest ih =>
    simp only [templateRefsAux] at h1
    obtain ⟨out, hout⟩ := ih names h1 h2
    exact ⟨'{' :: out, by simp [pyFormatAux, hout, Except.map]⟩
  case case3 rest ih =>
    simp only [templateRefsAux] at h1
    obtain ⟨out, hout⟩ := ih names h1 h2
    exact ⟨'}' :: out, by simp [pyFormatAux, hout, Except.map]⟩
  case case4 rest hs ih =>
    rw [show templateRefsAux none ('{' :: rest) = templateRefsAux (some []) rest by
          cases rest with
          | nil => rfl
          | cons c r =>
            by_cases hc : c = '{'
            · exact (hs r (by rw [hc])).elim
            · conv_lhs => rw [templateRefsAux.eq_def]
              simp [hc]] at h1
    obtain ⟨out, hout⟩ := ih names h1 h2
    refine ⟨out, ?_⟩
    rw [show pyFormatAux vars none ('{' :: rest) = pyFormatAux vars (some []) rest by
          cases rest with
          | nil => rfl
          | cons c r =>
            by_cases hc : c = '{'
            · exact (hs r (by rw [hc])).elim
            · conv_lhs => rw [pyFormatAux.eq_def]
              simp [hc]]
    exact hout
  case case5 tail hs => simp [templateRefsAux.eq_def] at h1
  case case6 c rest hs1 hs2 hne1 hne2 ih =>
    simp only [templateRefsAux, hne1, hne2] at h1
    obtain ⟨out, hout⟩ := ih names h1 h2
    exact ⟨c :: out, by simp [pyFormatAux, hne1, hne2, hout, Except.map]⟩
  case case7 buf => cases h1
  case case8 buf rest ih =>
    rcases heq : templateRefsAux none rest with _ | ns
    · rw [templateRefsAux, heq] at h1; cases h1
    · rw [templateRefsAux, heq] at h1
      have h3 := Option.some.inj h1
      subst h3
      have hbuf := h2 (String.mk buf) (List.mem_cons_self _ _)
      obtain ⟨v, hv⟩ := Option.isSome_iff_exists.mp hbuf
      obtain ⟨out, hout⟩ := ih ns heq (fun n hn => h2 n (List.mem_cons_of_mem _ hn))
      exact ⟨v.data ++ out, by simp [pyFormatAux, hv, hout, Except.map]⟩
  case case9 buf c rest hne ih =>
    simp only [templateRefsAux, hne] at h1
    obtain ⟨out, hout⟩ := ih names h1 h2
    exact ⟨out, by simp [pyFormatAux, hne, hout]⟩

/-- A header template whose references are all resolvable renders. -/
theorem render_ok_of_refs (vars : List (String × String)) (tmpl : String)
    (names : List String) (h1 : templateRefs tmpl = some names)
    (h2 : ∀ n ∈ names, (alookup vars n).isSome = true) :
    ∃ r, pyFormat tmpl vars = .ok r := by
  obtain ⟨out, hout⟩ := refs_render vars none tmpl.data names h1 h2
  exact ⟨String.mk out, by simp [pyFormat, hout, Except.map]⟩

/-- Every name of `env_vars` resolves in the substitution map built by the
first loop of `_substitute_env_vars`. -/
theorem alookup_envVarValues_isSome (env : EnvMap) (vars : List String) (n : String)
    (h : n ∈ vars) : (alookup (envVarValues env vars) n).isSome = true := by
  induction vars with
  | nil => cases h
  | cons v rest ih =>
    simp only [envVarValues, List.map_cons, alookup]
    by_cases hv : v = n
    · simp [hv]
    · rcases List.mem_cons.mp h with rfl | h2
      · exact absurd rfl hv
      · simpa [hv, envVarValues] using ih h2

/-- An `env_vars` name absent from the environment is substituted as the
empty string in the map built by `_substitute_env_vars`. -/
theorem alookup_envVarValues_missing (env : EnvMap) (vars : List String) (v : String)
    (hmem : v ∈ vars) (habs : alookup env v = none) :
    alookup (envVarValues env vars) v = some "" := by
  induction vars with
  | nil => cases hmem
  | cons k rest ih =>
    simp only [envVarValues, List.map_cons, alookup]
    by_cases hk : k = v
    · simp [hk, habs]
    · rcases List.mem_cons.mp hmem with rfl | h2
      · exact absurd rfl hk
      · simpa [hk, envVarValues] using ih h2

/-- An `env_vars` name absent from the environment produces its warning in
the first loop of `_substitute_env_vars`. -/
theorem mem_envWarnEvents (env : EnvMap) (vars : List String) (v : String)
    (hmem : v ∈ vars) (habs : alookup env v = none) :
    (EventLevel.warn, Event.envVariableValueNotPassed v) ∈ envWarnEvents env vars := by
  simp only [envWarnEvents, List.mem_filterMap]
  exact ⟨v, hmem, by simp [habs]⟩

/-- A covered hook config renders every header template, whatever the
process environment holds. -/
theorem covered_renders (env : EnvMap) (cfg : baseHookConfig) (h : coveredB cfg = true) :
    ∀ p ∈ cfg.headers, exceptOkB (pyFormat p.2 (envVarValues env cfg.env_vars)) = true := by
  intro p hp
  have hp2 := List.all_eq_true.mp h p hp
  rcases heq : templateRefs p.2 with _ | names
  · rw [heq] at hp2; cases hp2
  · rw [heq] at hp2
    have hnames : ∀ n ∈ names, (alookup (envVarValues env cfg.env_vars) n).isSome = true := by
      intro n hn
      have := List.all_eq_true.mp hp2 n hn
      exact alookup_envVarValues_isSome env cfg.env_vars n (by simpa using this)
    obtain ⟨r, hr⟩ := render_ok_of_refs (envVarValues env cfg.env_vars) p.2 names heq hnames
    simp [hr, exceptOkB]

/-- When every header renders, the loop emits nothing, keeps the incoming
success flag, and appends every rendered header. -/
theorem loop_ok (vars : List (String × String)) :
    ∀ (hs : List (String × String)) (success : Bool) (ext : List (String × String))
      (last : Option String) (evs : List (EventLevel × Event)),
      (∀ p ∈ hs, exceptOkB (pyFormat p.2 vars) = true) →
      renderHeadersLoop vars hs success ext last evs
        = (evs, .ok (success, ext ++ renderHeaders vars hs)) := by
  intro hs
  induction hs with
  | nil => intro success ext last evs _; simp [renderHeadersLoop, renderHeaders]
  | cons p rest ih =>
    intro success ext last evs h
    obtain ⟨hn, hv⟩ := p
    have hok := h (hn, hv) (List.mem_cons_self _ _)
    rcases heq : pyFormat hv vars with e | r
    · rw [heq] at hok; simp [exceptOkB] at hok
    · have htail : ∀ p ∈ rest, exceptOkB (pyFormat p.2 vars) = true :=
        fun p hp => h p (List.mem_cons_of_mem _ hp)
      simp only [renderHeadersLoop, heq]
      rw [ih success (ext ++ [(hn, r)]) (some r) evs htail]
      simp [renderHeaders, renderedOf, heq]

/-- The loop returns a true success flag only when it was called with one
and every remaining header renders. -/
theorem loop_ok_true (vars : List (String × String)) :
    ∀ (hs : List (String × String)) (success : Bool) (ext : List (String × String))
      (last : Option String) (evs evsOut : List (EventLevel × Event))
      (ext2 : List (String × String)),
      renderHeadersLoop vars hs success ext last evs = (evsOut, .ok (true, ext2)) →
      success = true ∧ ∀ p ∈ hs, exceptOkB (pyFormat p.2 vars) = true := by
  intro hs
  induction hs with
  | nil =>
    intro success ext last evs evsOut ext2 h
    simp only [renderHeadersLoop, Prod.mk.injEq, Except.ok.injEq] at h
    exact ⟨h.2.1, by simp⟩
  | cons p rest ih =>
    intro success ext last evs evsOut ext2 h
    obtain ⟨hn, hv⟩ := p
    rcases heq : pyFormat hv vars with e | r
    · rcases hlast : last with _ | r0
      · simp only [renderHeadersLoop, heq, hlast] at h
        simp at h
      · simp only [renderHeadersLoop, heq, hlast] at h
        have := ih false (ext ++ [(hn, r0)]) (some r0)
          (evs ++ [(EventLevel.error, Event.headerValueRenderingError hn hv)]) evsOut ext2 h
        exact absurd this.1 (by simp)
    · simp only [renderHeadersLoop, heq] at h
      have := ih success (ext ++ [(hn, r)]) (some r) evs evsOut ext2 h
      refine ⟨this.1, ?_⟩
      intro q hq
      rcases List.mem_cons.mp hq with rfl | hq2
      · simp [heq, exceptOkB]
      · exact this.2 q hq2

/-- Loop invariant: incoming events survive into the output, and a raised
or failed outcome means the loop started already failed or emitted a
header-render error. -/
theorem loop_inv (vars : List (String × String)) :
    ∀ (hs : List (String × String)) (success : Bool) (ext : List (String × String))
      (last : Option String) (evs : List (EventLevel × Event)),
      (∀ e ∈ evs, e ∈ (renderHeadersLoop vars hs success ext last evs).1)
      ∧ (((renderHeadersLoop vars hs success ext last evs).2 = .error ()
          ∨ ∃ ext2, (renderHeadersLoop vars hs success ext last evs).2 = .ok (false, ext2))
         → success = false
           ∨ ∃ hn hv, (EventLevel.error, Event.headerValueRenderingError hn hv)
               ∈ (renderHeadersLoop vars hs success ext last evs).1) := by
  intro hs
  induction hs with
  | nil =>
    intro success ext last evs
    constructor
    · intro e he; simpa [renderHeadersLoop] using he
    · intro h
      rcases h with h | ⟨ext2, h⟩
      · simp [renderHeadersLoop] at h
      · simp only [renderHeadersLoop, Except.ok.injEq, Prod.mk.injEq] at h
        exact Or.inl h.1
  | cons p rest ih =>
    intro success ext last evs
    obtain ⟨hn, hv⟩ := p
    rcases heq : pyFormat hv vars with e | r
    · rcases hlast : last with _ | r0
      · constructor
        · intro a ha
          simp only [renderHeadersLoop, heq, hlast]
          simp [ha]
        · intro _
          refine Or.inr ⟨hn, hv, ?_⟩
          simp [renderHeadersLoop, heq, hlast]
      · constructor
        · intro a ha
          simp only [renderHeadersLoop, heq, hlast]
          exact (ih false (ext ++ [(hn, r0)]) (some r0)
            (evs ++ [(EventLevel.error, Event.headerValueRenderingError hn hv)])).1 a (by simp [ha])
        · intro _
          refine Or.inr ⟨hn, hv, ?_⟩
          simp only [renderHeadersLoop, heq, hlast]
          exact (ih false (ext ++ [(hn, r0)]) (some r0)
            (evs ++ [(EventLevel.error, Event.headerValueRenderingError hn hv)])).1
            (EventLevel.error, Event.headerValueRenderingError hn hv) (by simp)
    · constructor
      · intro a ha
        simp only [renderHeadersLoop, heq]
        exact (ih success (ext ++ [(hn, r)]) (some r) evs).1 a ha
      · intro h
        simp only [renderHeadersLoop, heq] at h ⊢
        exact (ih success (ext ++ [(hn, r)]) (some r) evs).2 h

/-- Early-exit branch of `_substitute_env_vars` (config.py line 69): empty
`env_vars` or empty `headers` return success with the config untouched. -/
theorem subst_noop (env : EnvMap) (cfg : baseHookConfig)
    (h : cfg.env_vars = [] ∨ cfg.headers = []) :
    substitute_env_vars env (some cfg) = ([], .ok (true, some cfg)) := by
  simp only [substitute_env_vars]
  rw [if_pos h]

/-- Unfolding of `_substitute_env_vars` past the early exit. -/
theorem subst_eq (env : EnvMap) (cfg : baseHookConfig)
    (hcond : ¬(cfg.env_vars = [] ∨ cfg.headers = [])) :
    substitute_env_vars env (some cfg)
      = (match renderHeadersLoop (envVarValues env cfg.env_vars) cfg.headers true [] none
              (envWarnEvents env cfg.env_vars) with
         | (evs, .error e) => (evs, .error e)
         | (evs, .ok (success, headers_ext)) =>
             (evs, .ok (success, some { cfg with headers := headers_ext }))) := by
  simp only [substitute_env_vars, if_neg hcond]

/-- When every header of a hook renders, substitution succeeds: the missing
variable warnings are emitted and the headers are replaced by their
rendered values. -/
theorem subst_ok (env : EnvMap) (cfg : baseHookConfig)
    (h1 : cfg.env_vars ≠ []) (h2 : cfg.headers ≠ [])
    (h : ∀ p ∈ cfg.headers, exceptOkB (pyFormat p.2 (envVarValues env cfg.env_vars)) = true) :
    substitute_env_vars env (some cfg)
      = (envWarnEvents env cfg.env_vars,
         .ok (true, some { cfg with headers := renderHeaders (envVarValues env cfg.env_vars) cfg.headers })) := by
  rw [subst_eq env cfg (by simp [h1, h2])]
  rw [loop_ok (envVarValues env cfg.env_vars) cfg.headers true [] none
        (envWarnEvents env cfg.env_vars) h]
  simp

/-- A substitution that raises or reports failure has emitted a
header-render-error diagnostic. -/
theorem subst_fail_event (env : EnvMap) (oc : Option baseHookConfig)
    (h : (substitute_env_vars env oc).2 = .error ()
         ∨ ∃ c2, (substitute_env_vars env oc).2 = .ok (false, c2)) :
    ∃ hn hv, (EventLevel.error, Event.headerValueRenderingError hn hv)
      ∈ (substitute_env_vars env oc).1 := by
  cases oc with
  | none => simp [substitute_env_vars] at h
  | some cfg =>
    by_cases hcond : cfg.env_vars = [] ∨ cfg.headers = []
    · rw [subst_noop env cfg hcond] at h
      simp at h
    · have he := subst_eq env cfg hcond
      rcases hL : renderHeadersLoop (envVarValues env cfg.env_vars) cfg.headers true [] none
          (envWarnEvents env cfg.env_vars) with ⟨levs, lr⟩
      rw [hL] at he
      have hinv := (loop_inv (envVarValues env cfg.env_vars) cfg.headers true [] none
        (envWarnEvents env cfg.env_vars)).2
      rw [hL] at hinv
      cases lr with
      | error e =>
        cases e
        rw [he] at h ⊢
        rcases hinv (Or.inl rfl) with h2 | h2
        · cases h2
        · simpa using h2
      | ok v =>
        obtain ⟨s, hext⟩ := v
        rw [he] at h ⊢
        rcases h with h | ⟨c2, h⟩
        · simp at h
        · simp only [Except.ok.injEq, Prod.mk.injEq] at h
          rcases hinv (Or.inr ⟨hext, by rw [h.1]⟩) with h2 | h2
          · cases h2
          · simpa using h2

/-- A hook with a failing header template never yields a successful
substitution. -/
theorem subst_not_ok (env : EnvMap) (oc : Option baseHookConfig)
    (h : headerFailsB env oc = true) :
    ∀ c2, (substitute_env_vars env oc).2 ≠ .ok (true, c2) := by
  intro c2 hcontra
  cases oc with
  | none => simp [headerFailsB] at h
  | some cfg =>
    simp only [headerFailsB, Bool.and_eq_true, List.any_eq_true] at h
    obtain ⟨⟨hne1, hne2⟩, p, hp, hfail⟩ := h
    have hcond : ¬(cfg.env_vars = [] ∨ cfg.headers = []) := by
      simp only [Bool.not_eq_true', List.isEmpty_iff] at hne1 hne2
      simp only [not_or]
      constructor
      · intro hx; rw [hx] at hne1; simp [List.isEmpty_nil] at hne1
      · intro hx; rw [hx] at hne2; simp [List.isEmpty_nil] at hne2
    have he := subst_eq env cfg hcond
    rcases hL : renderHeadersLoop (envVarValues env cfg.env_vars) cfg.headers true [] none
        (envWarnEvents env cfg.env_vars) with ⟨levs, lr⟩
    rw [hL] at he
    cases lr with
    | error e => rw [he] at hcontra; simp at hcontra
    | ok v =>
      obtain ⟨s, hext⟩ := v
      rw [he] at hcontra
      simp only [Except.ok.injEq, Prod.mk.injEq] at hcontra
      have hs : s = true := hcontra.1
      subst hs
      have hall := loop_ok_true (envVarValues env cfg.env_vars) cfg.headers true [] none
        (envWarnEvents env cfg.env_vars) levs hext hL
      have hok := hall.2 p hp
      rw [hok] at hfail
      simp at hfail

/-- The model-hook wrapper emits exactly the events of the base-config
substitution. -/
theorem subst_model_events (env : EnvMap) (m : modelHookConfig) :
    (substitute_env_vars_model env (some m)).1
      = (substitute_env_vars env (some m.tobaseHookConfig)).1 := by
  simp only [substitute_env_vars_model]
  rcases hB : substitute_env_vars env (some m.tobaseHookConfig) with ⟨evs, r⟩
  cases r with
  | error e => simp
  | ok v =>
    obtain ⟨b, c⟩ := v
    cases c <;> simp

/-- Early-exit branch for a model-level hook. -/
theorem subst_model_noop (env : EnvMap) (m : modelHookConfig)
    (h : m.tobaseHookConfig.env_vars = [] ∨ m.tobaseHookConfig.headers = []) :
    substitute_env_vars_model env (some m) = ([], .ok (true, some m)) := by
  simp only [substitute_env_vars_model]
  rw [subst_noop env m.tobaseHookConfig h]

/-- Success case for a model-level hook. -/
theorem subst_model_ok (env : EnvMap) (m : modelHookConfig)
    (h1 : m.tobaseHookConfig.env_vars ≠ []) (h2 : m.tobaseHookConfig.headers ≠ [])
    (h : ∀ p ∈ m.tobaseHookConfig.headers,
      exceptOkB (pyFormat p.2 (envVarValues env m.tobaseHookConfig.env_vars)) = true) :
    substitute_env_vars_model env (some m)
      = (envWarnEvents env m.tobaseHookConfig.env_vars,
         .ok (true, some { m with tobaseHookConfig := { m.tobaseHookConfig with headers := renderHeaders (envVarValues env m.tobaseHookConfig.env_vars) m.tobaseHookConfig.headers } })) := by
  simp only [substitute_env_vars_model]
  rw [subst_ok env m.tobaseHookConfig h1 h2 h]

/-- Fail-event lemma for the model-hook wrapper. -/
theorem subst_model_fail_event (env : EnvMap) (om : Option modelHookConfig)
    (h : (substitute_env_vars_model env om).2 = .error ()
         ∨ ∃ c2, (substitute_env_vars_model env om).2 = .ok (false, c2)) :
    ∃ hn hv, (EventLevel.error, Event.headerValueRenderingError hn hv)
      ∈ (substitute_env_vars_model env om).1 := by
  cases om with
  | none => simp [substitute_env_vars_model] at h
  | some m =>
    rcases hB : substitute_env_vars env (some m.tobaseHookConfig) with ⟨evs, r⟩
    have hme := subst_model_events env m
    rw [hB] at hme
    cases r with
    | error e =>
      cases e
      have := subst_fail_event env (some m.tobaseHookConfig) (by rw [hB]; exact Or.inl rfl)
      rw [hB] at this
      rw [hme]
      exact this
    | ok v =>
      obtain ⟨b, c⟩ := v
      have hbf : b = false := by
        simp only [substitute_env_vars_model] at h
        rw [hB] at h
        cases c <;> simp_all
      subst hbf
      have := subst_fail_event env (some m.tobaseHookConfig)
        (by rw [hB]; exact Or.inr ⟨c, rfl⟩)
      rw [hB] at this
      rw [hme]
      exact this

/-- Not-ok lemma for the model-hook wrapper. -/
theorem subst_model_not_ok (env : EnvMap) (om : Option modelHookConfig)
    (h : headerFailsB env (om.map (fun m => m.tobaseHookConfig)) = true) :
    ∀ c2, (substitute_env_vars_model env om).2 ≠ .ok (true, c2) := by
  intro c2 hcontra
  cases om with
  | none => simp [headerFailsB] at h
  | some m =>
    simp only [Option.map_some'] at h
    rcases hB : substitute_env_vars env (some m.tobaseHookConfig) with ⟨evs, r⟩
    simp only [substitute_env_vars_model] at hcontra
    rw [hB] at hcontra
    cases r with
    | error e => simp at hcontra
    | ok v =>
      obtain ⟨b, c⟩ := v
      have hb : b = true := by cases c <;> simp_all
      subst hb
      exact subst_not_ok env (some m.tobaseHookConfig) h c (by rw [hB])

/-- Composition of the four successful substitutions in `from_yaml`. -/
theorem processHooks_eq (env : EnvMap) (config : dbtWebhookConfig)
    (e1 e2 e3 e4 : List (EventLevel × Event))
    (c1 c2 : Option baseHookConfig) (c3 c4 : Option modelHookConfig)
    (h1 : substitute_env_vars env config.command_start_hook = (e1, .ok (true, c1)))
    (h2 : substitute_env_vars env config.command_end_hook = (e2, .ok (true, c2)))
    (h3 : substitute_env_vars_model env config.model_start_hook = (e3, .ok (true, c3)))
    (h4 : substitute_env_vars_model env config.model_end_hook = (e4, .ok (true, c4))) :
    processHooks env config
      = (e1 ++ e2 ++ e3 ++ e4,
         .ok (some { command_start_hook := c1, command_end_hook := c2,
                     model_start_hook := c3, model_end_hook := c4 })) := by
  simp only [processHooks, h1, h2, h3, h4]

/-- When some hook's header fails to render, the hook loop of `from_yaml`
ends in `None` or in the raised `UnboundLocalError`, after emitting a
header-render-error diagnostic. -/
theorem processHooks_fail (env : EnvMap) (config : dbtWebhookConfig)
    (h : hookHeaderFailsB env config = true) :
    ((processHooks env config).2 = .ok none
      ∨ (processHooks env config).2 = .error .unboundLocal)
    ∧ ∃ hn hv, (EventLevel.error, Event.headerValueRenderingError hn hv)
        ∈ (processHooks env config).1 := by
  rcases h1 : substitute_env_vars env config.command_start_hook with ⟨e1, r1⟩
  cases r1 with
  | error u =>
    cases u
    have hev := subst_fail_event env config.command_start_hook (by rw [h1]; exact Or.inl rfl)
    rw [h1] at hev
    simp only [processHooks, h1]
    exact ⟨Or.inr trivial, by simpa using hev⟩
  | ok v1 =>
    obtain ⟨b1, c1⟩ := v1
    cases b1 with
    | false =>
      have hev := subst_fail_event env config.command_start_hook
        (by rw [h1]; exact Or.inr ⟨c1, rfl⟩)
      rw [h1] at hev
      simp only [processHooks, h1]
      exact ⟨Or.inl trivial, by simpa using hev⟩
    | true =>
      have hf1 : headerFailsB env config.command_start_hook = false := by
        cases hcase : headerFailsB env config.command_start_hook with
        | false => rfl
        | true =>
          exact absurd (show (substitute_env_vars env config.command_start_hook).2
              = .ok (true, c1) by rw [h1])
            (subst_not_ok env config.command_start_hook hcase c1)
      rcases h2 : substitute_env_vars env config.command_end_hook with ⟨e2, r2⟩
      cases r2 with
      | error u =>
        cases u
        have hev := subst_fail_event env config.command_end_hook (by rw [h2]; exact Or.inl rfl)
        rw [h2] at hev
        simp only [processHooks, h1, h2]
        exact ⟨Or.inr trivial, by obtain ⟨hn, hv, hm⟩ := hev; exact ⟨hn, hv, by simp [hm]⟩⟩
      | ok v2 =>
        obtain ⟨b2, c2⟩ := v2
        cases b2 with
        | false =>
          have hev := subst_fail_event env config.command_end_hook
            (by rw [h2]; exact Or.inr ⟨c2, rfl⟩)
          rw [h2] at hev
          simp only [processHooks, h1, h2]
          exact ⟨Or.inl trivial, by obtain ⟨hn, hv, hm⟩ := hev; exact ⟨hn, hv, by simp [hm]⟩⟩
        | true =>
          have hf2 : headerFailsB env config.command_end_hook = false := by
            cases hcase : headerFailsB env config.command_end_hook with
            | false => rfl
            | true =>
              exact absurd (show (substitute_env_vars env config.command_end_hook).2
                  = .ok (true, c2) by rw [h2])
                (subst_not_ok env config.command_end_hook hcase c2)
          rcases h3 : substitute_env_vars_model env config.model_start_hook with ⟨e3, r3⟩
          cases r3 with
          | error u =>
            cases u
            have hev := subst_model_fail_event env config.model_start_hook
              (by rw [h3]; exact Or.inl rfl)
            rw [h3] at hev
            simp only [processHooks, h1, h2, h3]
            exact ⟨Or.inr trivial, by obtain ⟨hn, hv, hm⟩ := hev; exact ⟨hn, hv, by simp [hm]⟩⟩
          | ok v3 =>
            obtain ⟨b3, c3⟩ := v3
            cases b3 with
            | false =>
              have hev := subst_model_fail_event env config.model_start_hook
                (by rw [h3]; exact Or.inr ⟨c3, rfl⟩)
              rw [h3] at hev
              simp only [processHooks, h1, h2, h3]
              exact ⟨Or.inl trivial, by obtain ⟨hn, hv, hm⟩ := hev; exact ⟨hn, hv, by simp [hm]⟩⟩
            | true =>
              have hf3 : headerFailsB env
                  (config.model_start_hook.map (fun m => m.tobaseHookConfig)) = false := by
                cases hcase : headerFailsB env
                    (config.model_start_hook.map (fun m => m.tobaseHookConfig)) with
                | false => rfl
                | true =>
                  exact absurd (show (substitute_env_vars_model env config.model_start_hook).2
                      = .ok (true, c3) by rw [h3])
                    (subst_model_not_ok env config.model_start_hook hcase c3)
              rcases h4 : substitute_env_vars_model env config.model_end_hook with ⟨e4, r4⟩
              cases r4 with
              | error u =>
                cases u
                have hev := subst_model_fail_event env config.model_end_hook
                  (by rw [h4]; exact Or.inl rfl)
                rw [h4] at hev
                simp only [processHooks, h1, h2, h3, h4]
                exact ⟨Or.inr trivial, by obtain ⟨hn, hv, hm⟩ := hev; exact ⟨hn, hv, by simp [hm]⟩⟩
              | ok v4 =>
                obtain ⟨b4, c4⟩ := v4
                cases b4 with
                | false =>
                  have hev := subst_model_fail_event env config.model_end_hook
                    (by rw [h4]; exact Or.inr ⟨c4, rfl⟩)
                  rw [h4] at hev
                  simp only [processHooks, h1, h2, h3, h4]
                  exact ⟨Or.inl trivial, by obtain ⟨hn, hv, hm⟩ := hev; exact ⟨hn, hv, by simp [hm]⟩⟩
                | true =>
                  have hf4 : headerFailsB env
                      (config.model_end_hook.map (fun m => m.tobaseHookConfig)) = false := by
                    cases hcase : headerFailsB env
                        (config.model_end_hook.map (fun m => m.tobaseHookConfig)) with
                    | false => rfl
                    | true =>
                      exact absurd (show (substitute_env_vars_model env config.model_end_hook).2
                          = .ok (true, c4) by rw [h4])
                        (subst_model_not_ok env config.model_end_hook hcase c4)
                  rw [hookHeaderFailsB, hf1, hf2, hf3, hf4] at h
                  simp at h

/-- Unfolding of `from_yaml` on a parsed document. -/
theorem from_yaml_doc (env : EnvMap) (path : String) (d : ConfigDoc) :
    from_yaml env path (.doc d)
      = ((EventLevel.info, Event.pluginConfigFoundFile path)
          :: (processHooks env (mkConfig d)).1,
         (processHooks env (mkConfig d)).2) := by
  simp only [from_yaml]

/-- Unfolding of `from_yaml` when no file exists at the resolved path. -/
theorem from_yaml_missing (env : EnvMap) (path : String) :
    from_yaml env path .missing
      = ((EventLevel.warn, Event.pluginConfigNotFound) :: (processHooks env {}).1,
         (processHooks env {}).2) := by
  simp only [from_yaml]

/-- A covered hook always substitutes successfully; in the rendering case
the emitted events are exactly the missing-variable warnings. -/
theorem subst_ok_any (env : EnvMap) (oc : Option baseHookConfig)
    (h : ∀ c, oc = some c → coveredB c = true) :
    ∃ e c2, substitute_env_vars env oc = (e, .ok (true, c2))
      ∧ ∀ cfg, oc = some cfg → cfg.headers ≠ [] → cfg.env_vars ≠ [] →
          e = envWarnEvents env cfg.env_vars := by
  cases oc with
  | none => exact ⟨[], none, rfl, by intro cfg h2; cases h2⟩
  | some cfg =>
    by_cases hcond : cfg.env_vars = [] ∨ cfg.headers = []
    · refine ⟨[], some cfg, subst_noop env cfg hcond, ?_⟩
      intro cfg2 heq hh he
      cases Option.some.inj heq
      rcases hcond with hc | hc
      · exact absurd hc he
      · exact absurd hc hh
    · obtain ⟨hA, hB⟩ := not_or.mp hcond
      refine ⟨envWarnEvents env cfg.env_vars, _,
        subst_ok env cfg hA hB (covered_renders env cfg (h cfg rfl)), ?_⟩
      intro cfg2 heq _ _
      cases Option.some.inj heq
      rfl

/-- Model-hook version of `subst_ok_any`. -/
theorem subst_model_ok_any (env : EnvMap) (om : Option modelHookConfig)
    (h : ∀ m, om = some m → coveredB m.tobaseHookConfig = true) :
    ∃ e c2, substitute_env_vars_model env om = (e, .ok (true, c2))
      ∧ ∀ m, om = some m → m.tobaseHookConfig.headers ≠ [] →
          m.tobaseHookConfig.env_vars ≠ [] →
          e = envWarnEvents env m.tobaseHookConfig.env_vars := by
  cases om with
  | none => exact ⟨[], none, rfl, by intro m h2; cases h2⟩
  | some m =>
    by_cases hcond : m.tobaseHookConfig.env_vars = [] ∨ m.tobaseHookConfig.headers = []
    · refine ⟨[], some m, subst_model_noop env m hcond, ?_⟩
      intro m2 heq hh he
      cases Option.some.inj heq
      rcases hcond with hc | hc
      · exact absurd hc he
      · exact absurd hc hh
    · obtain ⟨hA, hB⟩ := not_or.mp hcond
      refine ⟨envWarnEvents env m.tobaseHookConfig.env_vars, _,
        subst_model_ok env m hA hB (covered_renders env m.tobaseHookConfig (h m rfl)), ?_⟩
      intro m2 heq _ _
      cases Option.some.inj heq
      rfl

/-- Claim C2: after a start-class call for a key records the start call's
response, the end-class call for the same key is a PUT to the same URL as
the start call; when no record exists for the key, the end call uses the
end hook's own configured method (and URL). -/
theorem claim_c2 (store : List (CorrelationKey × CorrelationRecord)) (key : CorrelationKey)
    (cfgStart cfgEnd : baseHookConfig) (resp : List (String × String)) :
    endCallRequest (storeStart store key cfgStart resp) key cfgEnd
      = ("PUT", cfgStart.webhook_url)
    ∧ (alookup store key = none →
        endCallRequest store key cfgEnd = (cfgEnd.webhok_method, cfgEnd.webhook_url)) := by
  constructor
  · simp [endCallRequest, storeStart, alookup]
  · intro h
    simp [endCallRequest, h]

/-- Claim C2 witness: concrete start-then-end and no-start-record runs. -/
theorem claim_c2_witness :
    endCallRequest (storeStart [] ("inv1", none) { webhook_url := "a/b/c" } [("id", "7")])
      ("inv1", none) { webhok_method := "POST" } = ("PUT", "a/b/c")
    ∧ endCallRequest [] ("inv2", none) { webhok_method := "POST", webhook_url := "d/e" }
      = ("POST", "d/e") := by
  have h := claim_c2 [] ("inv1", none) { webhook_url := "a/b/c" }
    { webhok_method := "POST", webhook_url := "d/e" } [("id", "7")]
  have h2 := claim_c2 [] ("inv2", none) { webhook_url := "a/b/c" }
    { webhok_method := "POST", webhook_url := "d/e" } [("id", "7")]
  exact ⟨h.1, h2.2 rfl⟩

/-- Claim C4: with `env_vars = [DBT_WEBHOOK_AUTH_TOKEN]` and that variable
bound to `xyz`, the template `bearer {DBT_WEBHOOK_AUTH_TOKEN}` renders to
exactly `bearer xyz`, and load-time substitution on the default hook
config rewrites the Authorization header to that verbatim value. -/
theorem claim_c4 :
    pyFormat "bearer {DBT_WEBHOOK_AUTH_TOKEN}"
      (envVarValues [("DBT_WEBHOOK_AUTH_TOKEN", "xyz")] ["DBT_WEBHOOK_AUTH_TOKEN"])
      = .ok "bearer xyz"
    ∧ substitute_env_vars [("DBT_WEBHOOK_AUTH_TOKEN", "xyz")] (some {})
      = ([], .ok (true, some { headers :=
          [("Authorization", "bearer xyz"), ("Content-Type", "application/json")] })) := by
  constructor
  · rfl
  · rfl

/-- Claim C5: the configuration key `webhook_method` does not override the
hook's HTTP verb — the pydantic field is misspelled `webhok_method`, so the
`webhook_method` key is silently ignored and the verb stays `POST`, while
every other documented key does override its field. -/
theorem claim_c5_method_key_ignored :
    (mkBaseHookConfig [("webhook_method", YVal.s "PUT")]).webhok_method = "POST"
    ∧ mkBaseHookConfig [("webhook_method", YVal.s "PUT")] = mkBaseHookConfig []
    ∧ (mkBaseHookConfig [("webhok_method", YVal.s "PUT")]).webhok_method = "PUT"
    ∧ (mkBaseHookConfig [("webhook_url", YVal.s "a/b/c")]).webhook_url = "a/b/c"
    ∧ (mkBaseHookConfig [("command_types", YVal.l ["compile"])]).command_types = ["compile"]
    ∧ (mkModelHookConfig [("node_types", YVal.l ["seed"])]).node_types = ["seed"]
    ∧ (mkBaseHookConfig [("webhook_request_data_template", YVal.s "T")]).webhook_request_data_template = "T"
    ∧ (mkBaseHookConfig [("headers", YVal.m [("H", "v")])]).headers = [("H", "v")]
    ∧ (mkBaseHookConfig [("env_vars", YVal.l ["A"])]).env_vars = ["A"] := by
  refine ⟨rfl, ?_, rfl, rfl, rfl, rfl, rfl, rfl, rfl⟩
  decide

/-- Claim C6: a structurally invalid document makes `from_yaml` raise the
parse error after the found-file notice, so the load yields no usable
configuration, all four hooks are treated as absent, and no hook can
dispatch for any command type. -/
theorem claim_c6 (env : EnvMap) (path : String) (ct : String) :
    from_yaml env path .unparseable
      = ([(EventLevel.info, Event.pluginConfigFoundFile path)], .error .parseError)
    ∧ effectiveHooks (from_yaml env path .unparseable).2 = none
    ∧ anyHookDispatches (effectiveHooks (from_yaml env path .unparseable).2) ct = false := by
  exact ⟨rfl, rfl, rfl⟩

/-- Claim C8: the default hook config's headers are exactly the
Authorization bearer-token template and the JSON content type, and the
default `env_vars` list is exactly the auth-token variable; a hook built
from an empty document keeps these defaults. -/
theorem claim_c8 :
    ({} : baseHookConfig).headers
      = [("Authorization", "bearer {DBT_WEBHOOK_AUTH_TOKEN}"),
         ("Content-Type", "application/json")]
    ∧ ({} : baseHookConfig).env_vars = ["DBT_WEBHOOK_AUTH_TOKEN"]
    ∧ mkBaseHookConfig [] = ({} : baseHookConfig)
    ∧ (mkModelHookConfig []).tobaseHookConfig = ({} : baseHookConfig) := by
  refine ⟨rfl, rfl, ?_, ?_⟩ <;> decide

/-- Claim C7: when no config file exists at the resolved path, `from_yaml`
emits the config-not-found warning, loads the built-in defaults for all
four hooks, succeeds, and leaves every hook's URL empty, so no hook can
dispatch for any command type. -/
theorem claim_c7 (env : EnvMap) (path ct : String) :
    ∃ evs c,
      from_yaml env path .missing
        = ((EventLevel.warn, Event.pluginConfigNotFound) :: evs, .ok (some c))
      ∧ (∃ b, c.command_start_hook = some b ∧ b.webhook_url = "")
      ∧ (∃ b, c.command_end_hook = some b ∧ b.webhook_url = "")
      ∧ (∃ m, c.model_start_hook = some m ∧ m.webhook_url = "")
      ∧ (∃ m, c.model_end_hook = some m ∧ m.webhook_url = "")
      ∧ anyHookDispatches (some c) ct = false := by
  have hcb : coveredB ({} : baseHookConfig) = true := by decide
  have h1 := subst_ok env ({} : baseHookConfig) (by decide) (by decide)
    (covered_renders env {} hcb)
  have h3 := subst_model_ok env ({} : modelHookConfig) (by decide) (by decide)
    (covered_renders env ({} : modelHookConfig).tobaseHookConfig (by decide))
  have hP := processHooks_eq env ({} : dbtWebhookConfig) _ _ _ _ _ _ _ _ h1 h1 h3 h3
  rw [from_yaml_missing, hP]
  refine ⟨_, _, rfl, ⟨_, rfl, rfl⟩, ⟨_, rfl, rfl⟩, ⟨_, rfl, rfl⟩, ⟨_, rfl, rfl⟩, ?_⟩
  simp [anyHookDispatches, hookDispatches]

/-- Claim C3 counterexample: a hook whose `headers` mapping is empty skips
`_substitute_env_vars` entirely, so an `env_vars` name absent from the
environment produces no warning at all, refuting the claim that every
absent listed variable is warned about. -/
theorem claim_c3_counterexample :
    ((mkConfig { command_start_hook := some [("env_vars", YVal.l ["X"]), ("headers", YVal.m [])], command_end_hook := some [("env_vars", YVal.l ["X"]), ("headers", YVal.m [])], model_start_hook := some [("env_vars", YVal.l ["X"]), ("headers", YVal.m [])], model_end_hook := some [("env_vars", YVal.l ["X"]), ("headers", YVal.m [])] }).command_start_hook.map
        (fun c => (c.env_vars, c.headers))) = some (["X"], [])
    ∧ alookup ([] : EnvMap) "X" = none
    ∧ from_yaml [] "p" (.doc { command_start_hook := some [("env_vars", YVal.l ["X"]), ("headers", YVal.m [])], command_end_hook := some [("env_vars", YVal.l ["X"]), ("headers", YVal.m [])], model_start_hook := some [("env_vars", YVal.l ["X"]), ("headers", YVal.m [])], model_end_hook := some [("env_vars", YVal.l ["X"]), ("headers", YVal.m [])] })
      = ([(EventLevel.info, Event.pluginConfigFoundFile "p")],
         .ok (some (mkConfig { command_start_hook := some [("env_vars", YVal.l ["X"]), ("headers", YVal.m [])], command_end_hook := some [("env_vars", YVal.l ["X"]), ("headers", YVal.m [])], model_start_hook := some [("env_vars", YVal.l ["X"]), ("headers", YVal.m [])], model_end_hook := some [("env_vars", YVal.l ["X"]), ("headers", YVal.m [])] })))
    ∧ (EventLevel.warn, Event.envVariableValueNotPassed "X")
        ∉ (from_yaml [] "p" (.doc { command_start_hook := some [("env_vars", YVal.l ["X"]), ("headers", YVal.m [])], command_end_hook := some [("env_vars", YVal.l ["X"]), ("headers", YVal.m [])], model_start_hook := some [("env_vars", YVal.l ["X"]), ("headers", YVal.m [])], model_end_hook := some [("env_vars", YVal.l ["X"]), ("headers", YVal.m [])] })).1 := by
  decide

/-- Claim C3 (amended): for a hook whose headers mapping is nonempty, an
`env_vars` name absent from the environment yields a warning and an
empty-string substitution, and the load still succeeds when every hook's
header templates reference only names listed in its `env_vars`. -/
theorem claim_c3_amended (env : EnvMap) (path : String) (d : ConfigDoc)
    (v : String) (cfg : baseHookConfig)
    (hhook : hookOfConfig (mkConfig d) cfg)
    (hheads : cfg.headers ≠ [])
    (hv : v ∈ cfg.env_vars)
    (habs : alookup env v = none)
    (hcov : ∀ b, hookOfConfig (mkConfig d) b → coveredB b = true) :
    ∃ evs c, from_yaml env path (.doc d)
        = ((EventLevel.info, Event.pluginConfigFoundFile path) :: evs, .ok (some c))
      ∧ (EventLevel.warn, Event.envVariableValueNotPassed v) ∈ evs
      ∧ alookup (envVarValues env cfg.env_vars) v = some "" := by
  have hne : cfg.env_vars ≠ [] := by intro hx; rw [hx] at hv; cases hv
  obtain ⟨e1, c1, h1, he1⟩ := subst_ok_any env (mkConfig d).command_start_hook
    (fun c hc => hcov c (Or.inl hc))
  obtain ⟨e2, c2, h2, he2⟩ := subst_ok_any env (mkConfig d).command_end_hook
    (fun c hc => hcov c (Or.inr (Or.inl hc)))
  obtain ⟨e3, c3, h3, he3⟩ := subst_model_ok_any env (mkConfig d).model_start_hook
    (fun m hm => hcov _ (Or.inr (Or.inr (Or.inl (by rw [hm]; rfl)))))
  obtain ⟨e4, c4, h4, he4⟩ := subst_model_ok_any env (mkConfig d).model_end_hook
    (fun m hm => hcov _ (Or.inr (Or.inr (Or.inr (by rw [hm]; rfl)))))
  have hP := processHooks_eq env (mkConfig d) e1 e2 e3 e4 c1 c2 c3 c4 h1 h2 h3 h4
  rw [from_yaml_doc, hP]
  refine ⟨e1 ++ e2 ++ e3 ++ e4, _, rfl, ?_,
    alookup_envVarValues_missing env cfg.env_vars v hv habs⟩
  have hwarn := mem_envWarnEvents env cfg.env_vars v hv habs
  rcases hhook with hc | hc | hc | hc
  · rw [he1 cfg hc hheads hne]
    simp [hwarn]
  · rw [he2 cfg hc hheads hne]
    simp [hwarn]
  · rcases hm : (mkConfig d).model_start_hook with _ | m
    · rw [hm] at hc; cases hc
    · rw [hm] at hc
      simp only [Option.map_some'] at hc
      have hmb := Option.some.inj hc
      rw [he3 m hm (by rw [hmb]; exact hheads) (by rw [hmb]; exact hne), hmb]
      simp [hwarn]
  · rcases hm : (mkConfig d).model_end_hook with _ | m
    · rw [hm] at hc; cases hc
    · rw [hm] at hc
      simp only [Option.map_some'] at hc
      have hmb := Option.some.inj hc
      rw [he4 m hm (by rw [hmb]; exact hheads) (by rw [hmb]; exact hne), hmb]
      simp [hwarn]

/-- Claim C3 witness: amended claim applied at a concrete document with a
missing variable `X` used by a nonempty headers mapping. -/
theorem claim_c3_amended_witness :
    ∃ evs c, from_yaml [] "p" (.doc { command_start_hook := some [("env_vars", YVal.l ["X"]), ("headers", YVal.m [("H", "{X}")])] })
        = ((EventLevel.info, Event.pluginConfigFoundFile "p") :: evs, .ok (some c))
      ∧ (EventLevel.warn, Event.envVariableValueNotPassed "X") ∈ evs
      ∧ alookup (envVarValues [] (mkBaseHookConfig [("env_vars", YVal.l ["X"]), ("headers", YVal.m [("H", "{X}")])]).env_vars) "X" = some "" := by
  refine claim_c3_amended [] "p" _ "X" _ (Or.inl rfl) (by decide) (by decide) (by decide) ?_
  intro b hb
  rcases hb with hb | hb | hb | hb <;>
    simp only [mkConfig, Option.map_some'] at hb <;>
    cases Option.some.inj hb <;> decide

/-- Claim C1 counterexample: when the failing header is the first iterated
one, `from_yaml` raises `UnboundLocalError` instead of returning `None`
(the diagnostic is still emitted before the raise). -/
theorem claim_c1_counterexample :
    (from_yaml [] "p" (.doc { command_start_hook := some [("headers", YVal.m [("H", "{M}")]), ("env_vars", YVal.l ["X"])] })).2
      = .error .unboundLocal
    ∧ (from_yaml [] "p" (.doc { command_start_hook := some [("headers", YVal.m [("H", "{M}")]), ("env_vars", YVal.l ["X"])] })).2
      ≠ .ok none
    ∧ (EventLevel.error, Event.headerValueRenderingError "H" "{M}")
        ∈ (from_yaml [] "p" (.doc { command_start_hook := some [("headers", YVal.m [("H", "{M}")]), ("env_vars", YVal.l ["X"])] })).1 := by
  refine ⟨by decide, by decide, by decide⟩

/-- Claim C1 (amended): whenever any hook's header fails to render, the
load emits a header-render-error diagnostic and yields no usable
configuration — `from_yaml` returns `None` when an earlier header of that
hook already rendered, and raises `UnboundLocalError` when the failing
header is the first iterated. -/
theorem claim_c1_amended (env : EnvMap) (path : String) (d : ConfigDoc)
    (h : hookHeaderFailsB env (mkConfig d) = true) :
    ((from_yaml env path (.doc d)).2 = .ok none
      ∨ (from_yaml env path (.doc d)).2 = .error .unboundLocal)
    ∧ ∃ hn hv, (EventLevel.error, Event.headerValueRenderingError hn hv)
        ∈ (from_yaml env path (.doc d)).1 := by
  have hp := processHooks_fail env (mkConfig d) h
  rw [from_yaml_doc]
  refine ⟨hp.1, ?_⟩
  obtain ⟨hn, hv, hmem⟩ := hp.2
  exact ⟨hn, hv, List.mem_cons_of_mem _ hmem⟩

/-- Claim C1 witness: amended claim at a concrete document whose second
header fails, making the load return `None` after the diagnostic. -/
theorem claim_c1_amended_witness :
    ((from_yaml [] "p" (.doc { command_start_hook := some [("headers", YVal.m [("A", "x"), ("H", "{M}")]), ("env_vars", YVal.l ["X"])] })).2 = .ok none
      ∨ (from_yaml [] "p" (.doc { command_start_hook := some [("headers", YVal.m [("A", "x"), ("H", "{M}")]), ("env_vars", YVal.l ["X"])] })).2 = .error .unboundLocal)
    ∧ ∃ hn hv, (EventLevel.error, Event.headerValueRenderingError hn hv)
        ∈ (from_yaml [] "p" (.doc { command_start_hook := some [("headers", YVal.m [("A", "x"), ("H", "{M}")]), ("env_vars", YVal.l ["X"])] })).1 :=
  claim_c1_amended [] "p" _ (by decide)

/-- Claim C9: the assignment after the except branch is not skipped — a
failing header is assigned the stale rendered value of the previous
iteration; and when the failing header is the first iterated, the local is
unbound, so `_substitute_env_vars` raises (and `from_yaml` propagates the
exception instead of returning a failure result). -/
theorem claim_c9 :
    (∀ (vars : List (String × String)) (hn1 t1 hn2 t2 r1v : String),
        pyFormat t1 vars = .ok r1v → exceptOkB (pyFormat t2 vars) = false →
        renderHeadersLoop vars [(hn1, t1), (hn2, t2)] true [] none []
          = ([(EventLevel.error, Event.headerValueRenderingError hn2 t2)],
             .ok (false, [(hn1, r1v), (hn2, r1v)])))
    ∧ (∀ (env : EnvMap) (cfg : baseHookConfig) (hn t : String)
        (rest : List (String × String)),
        cfg.env_vars ≠ [] → cfg.headers = (hn, t) :: rest →
        exceptOkB (pyFormat t (envVarValues env cfg.env_vars)) = false →
        substitute_env_vars env (some cfg)
          = (envWarnEvents env cfg.env_vars
              ++ [(EventLevel.error, Event.headerValueRenderingError hn t)], .error ()))
    ∧ (∀ (env : EnvMap) (path : String) (d : ConfigDoc) (cfg : baseHookConfig)
        (hn t : String) (rest : List (String × String)),
        (mkConfig d).command_start_hook = some cfg →
        cfg.env_vars ≠ [] → cfg.headers = (hn, t) :: rest →
        exceptOkB (pyFormat t (envVarValues env cfg.env_vars)) = false →
        (from_yaml env path (.doc d)).2 = .error .unboundLocal) := by
  have hB : ∀ (env : EnvMap) (cfg : baseHookConfig) (hn t : String)
      (rest : List (String × String)),
      cfg.env_vars ≠ [] → cfg.headers = (hn, t) :: rest →
      exceptOkB (pyFormat t (envVarValues env cfg.env_vars)) = false →
      substitute_env_vars env (some cfg)
        = (envWarnEvents env cfg.env_vars
            ++ [(EventLevel.error, Event.headerValueRenderingError hn t)], .error ()) := by
    intro env cfg hn t rest hne hhd hfail
    rcases heqf : pyFormat t (envVarValues env cfg.env_vars) with u | r
    · cases u
      rw [subst_eq env cfg (by simp [hne, hhd])]
      rw [hhd]
      simp [renderHeadersLoop, heqf]
    · rw [heqf] at hfail
      simp [exceptOkB] at hfail
  refine ⟨?_, hB, ?_⟩
  · intro vars hn1 t1 hn2 t2 r1v h1 h2
    rcases heq2 : pyFormat t2 vars with u | r
    · cases u
      simp [renderHeadersLoop, h1, heq2]
    · rw [heq2] at h2
      simp [exceptOkB] at h2
  · intro env path d cfg hn t rest hcs hne hhd hfail
    have hsub := hB env cfg hn t rest hne hhd hfail
    rw [from_yaml_doc]
    simp only [processHooks, hcs, hsub]

/-- Claim C9 witness: concrete stale-assignment run, first-header raise,
and the raise propagating out of `from_yaml`. -/
theorem claim_c9_witness :
    renderHeadersLoop [("X", "")] [("A", "x"), ("H", "{M}")] true [] none []
      = ([(EventLevel.error, Event.headerValueRenderingError "H" "{M}")],
         .ok (false, [("A", "x"), ("H", "x")]))
    ∧ substitute_env_vars [] (some { headers := [("H", "{M}")], env_vars := ["X"] })
      = ([(EventLevel.warn, Event.envVariableValueNotPassed "X"),
          (EventLevel.error, Event.headerValueRenderingError "H" "{M}")], .error ())
    ∧ (from_yaml [] "p" (.doc { command_start_hook := some [("headers", YVal.m [("H", "{M}")]), ("env_vars", YVal.l ["X"])] })).2
      = .error .unboundLocal := by
  refine ⟨claim_c9.1 [("X", "")] "A" "x" "H" "{M}" "x" (by decide) (by decide), ?_, ?_⟩
  · have h := claim_c9.2.1 [] { headers := [("H", "{M}")], env_vars := ["X"] }
      "H" "{M}" [] (by decide) rfl (by decide)
    simpa using h
  · exact claim_c9.2.2 [] "p" _ _ "H" "{M}" [] rfl (by decide) (by decide) (by decide)

/-- Claim C10: an absent hook config, an empty `env_vars` list, or an
empty `headers` mapping makes `_substitute_env_vars` return success with
the headers untouched (placeholders stay verbatim), and a document whose
hooks all fall in these cases loads successfully with the config entirely
unmodified. -/
theorem claim_c10 (env : EnvMap) (cfg : baseHookConfig) (path : String) (d : ConfigDoc) :
    substitute_env_vars env none = ([], .ok (true, none))
    ∧ (cfg.env_vars = [] → substitute_env_vars env (some cfg) = ([], .ok (true, some cfg)))
    ∧ (cfg.headers = [] → substitute_env_vars env (some cfg) = ([], .ok (true, some cfg)))
    ∧ ((∀ b, hookOfConfig (mkConfig d) b → b.env_vars = [] ∨ b.headers = []) →
        from_yaml env path (.doc d)
          = ([(EventLevel.info, Event.pluginConfigFoundFile path)],
             .ok (some (mkConfig d)))) := by
  refine ⟨rfl, fun h => subst_noop env cfg (Or.inl h),
    fun h => subst_noop env cfg (Or.inr h), ?_⟩
  intro hall
  have h1 : substitute_env_vars env (mkConfig d).command_start_hook
      = ([], .ok (true, (mkConfig d).command_start_hook)) :=
    subst_noop env _ (hall _ (Or.inl rfl))
  have h2 : substitute_env_vars env (mkConfig d).command_end_hook
      = ([], .ok (true, (mkConfig d).command_end_hook)) :=
    subst_noop env _ (hall _ (Or.inr (Or.inl rfl)))
  have h3 : substitute_env_vars_model env (mkConfig d).model_start_hook
      = ([], .ok (true, (mkConfig d).model_start_hook)) :=
    subst_model_noop env _ (hall _ (Or.inr (Or.inr (Or.inl rfl))))
  have h4 : substitute_env_vars_model env (mkConfig d).model_end_hook
      = ([], .ok (true, (mkConfig d).model_end_hook)) :=
    subst_model_noop env _ (hall _ (Or.inr (Or.inr (Or.inr rfl))))
  rw [from_yaml_doc, processHooks_eq env (mkConfig d) _ _ _ _ _ _ _ _ h1 h2 h3 h4]
  rfl

/-- Claim C10 witness: a config whose four hooks all have empty `env_vars`
loads unchanged. -/
theorem claim_c10_witness :
    substitute_env_vars [] (some { env_vars := ([] : List String) })
      = ([], .ok (true, some { env_vars := ([] : List String) }))
    ∧ from_yaml [] "p" (.doc { command_start_hook := some [("env_vars", YVal.l [])], command_end_hook := some [("env_vars", YVal.l [])], model_start_hook := some [("env_vars", YVal.l [])], model_end_hook := some [("env_vars", YVal.l [])] })
      = ([(EventLevel.info, Event.pluginConfigFoundFile "p")],
         .ok (some (mkConfig { command_start_hook := some [("env_vars", YVal.l [])], command_end_hook := some [("env_vars", YVal.l [])], model_start_hook := some [("env_vars", YVal.l [])], model_end_hook := some [("env_vars", YVal.l [])] }))) := by
  constructor
  · exact (claim_c10 [] { env_vars := ([] : List String) } "p" {}).2.1 rfl
  · refine (claim_c10 [] {} "p" _).2.2.2 ?_
    intro b hb
    rcases hb with hb | hb | hb | hb <;>
      simp only [mkConfig, Option.map_some'] at hb <;>
      cases Option.some.inj hb <;> decide

end DbtWebhook
